import Mathlib

/-!
Shallow embedding of `src/rp_handler.py` (RunpodHeadTurner).

The Python module orchestrates a ComfyUI rendering job: it syncs model
assets from S3 into a local cache, takes an inventory of local models,
patches the workflow graph's checkpoint references, launches the ComfyUI
server as a subprocess, waits for its port, submits the workflow over
HTTP, polls the output directory for produced images, tears the server
down and collects up to 8 images.

Conventions of the embedding:
* JSON values (`JVal`) model Python dict/list/str/int/bool/None values;
  a Python dict is an association list in insertion order (keys unique
  when the value came from JSON).
* Filesystem paths are modeled structurally: a file under the output
  directory is an `OutFile` record; a file under the model root is its
  relative path string.
* External effects (process exit codes, TCP connect results, the HTTP
  response, files appearing in the output directory, fetch success) are
  oracles supplied as explicit inputs, so every function is executable.
* Sleep-based polling loops become fuel-indexed recursion, one fuel unit
  per loop iteration; the fixed deadlines become fuel constants.
-/

set_option maxRecDepth 4000

namespace RpHandler

/-- A JSON-like Python value, as handled by the workflow-patching code.
Objects are association lists in insertion order. -/
inductive JVal where
  | jstr (s : String)
  | jnum (n : Int)
  | jbool (b : Bool)
  | jnull
  | jarr (xs : List JVal)
  | jobj (fields : List (String × JVal))

/-- `d.get(k)` on a Python dict modeled as an association list:
the value of the first binding of `k`, if any. -/
def jget : List (String × JVal) → String → Option JVal
  | [], _ => none
  | (k2, v2) :: rest, k => if k2 = k then some v2 else jget rest k

/-- `d[k] = v` on a Python dict: replace the value of the existing
binding of `k` in place, else append a new binding at the end
(Python dicts preserve insertion order). -/
def jset : List (String × JVal) → String → JVal → List (String × JVal)
  | [], k, v => [(k, v)]
  | (k2, v2) :: rest, k, v =>
    if k2 = k then (k, v) :: rest else (k2, v2) :: jset rest k v

/-- Python truthiness of a JSON value (`None`, `False`, `0`, `""`, `[]`,
and `\x7b\x7d` are falsy). -/
def truthy : JVal → Bool
  | .jnull => false
  | .jbool b => b
  | .jnum n => n != 0
  | .jstr s => s ≠ ""
  | .jarr xs => !xs.isEmpty
  | .jobj fs => !fs.isEmpty

/-- `node.get("class_type") or node.get("class", "")` from
`extract_ckpt_refs` (rp_handler.py line 123): the `class_type` value if
present and truthy, else the legacy `class` value, defaulting to `""`. -/
def ctOf (fields : List (String × JVal)) : JVal :=
  let a := (jget fields "class_type").getD .jnull
  if truthy a then a else (jget fields "class").getD (.jstr "")

/-- `ct in ("CheckpointLoaderSimple", "CheckpointLoader")`
(rp_handler.py line 124): only a string can compare equal. -/
def isLoaderCT : JVal → Bool
  | .jstr s => s = "CheckpointLoaderSimple" || s = "CheckpointLoader"
  | _ => false

/-- A workflow graph: node-id keyed mapping, as an association list. -/
abbrev Workflow := List (String × JVal)

/-- The checkpoint reference of a node: `node["inputs"]["ckpt_name"]`
when the node is an object with an object `inputs` field. -/
def ckptNameOf : JVal → Option JVal
  | .jobj fields =>
    match jget fields "inputs" with
    | some (.jobj ins) => jget ins "ckpt_name"
    | _ => none
  | _ => none

/-- One entry of the forced-checkpoint loop (rp_handler.py lines
381-384): for a node that `extract_ckpt_refs` matches (an object whose
class is a checkpoint-loader type and whose `inputs` is a dict),
`inputs["ckpt_name"] = FORCED_CKPT`. A loader node with no `inputs` key
is matched against a fresh default `\x7b\x7d` dict, so the assignment
is lost and the node is unchanged — mirrored by the fall-through case. -/
def setCkpt (c : String) : String × JVal → String × JVal
  | (nid, .jobj fields) =>
    if isLoaderCT (ctOf fields) then
      match jget fields "inputs" with
      | some (.jobj ins) =>
        (nid, .jobj (jset fields "inputs" (.jobj (jset ins "ckpt_name" (.jstr c)))))
      | _ => (nid, .jobj fields)
    else (nid, .jobj fields)
  | p => p

/-- The forced-checkpoint override applied to every node
(rp_handler.py lines 381-384). -/
def applyForced (c : String) (wf : Workflow) : Workflow :=
  wf.map (setCkpt c)

/-- The data `reconcile_ckpt_names` needs from one node before it can
substitute (rp_handler.py lines 123-127 and 144-145): the node must be
an object `extract_ckpt_refs` matches (loader class type with a dict
`inputs`), and `inputs.get("ckpt_name")` must be a string.  Returns the
node's fields, its inputs and the requested name.  A loader node with
no `inputs` key is matched against a fresh default empty dict whose
`ckpt_name` lookup yields `None`, so it falls in the `none` case here,
exactly as the source leaves such a node unchanged. -/
def subTarget : JVal → Option (List (String × JVal) × List (String × JVal) × String)
  | .jobj fields =>
    if isLoaderCT (ctOf fields) then
      match jget fields "inputs" with
      | some (.jobj ins) =>
        match jget ins "ckpt_name" with
        | some (.jstr r) => some (fields, ins, r)
        | _ => none
      | _ => none
    else none
  | _ => none

/-- Whether `reconcile_ckpt_names` substitutes this node: it has a
requested string name and that name is not in the available set
(rp_handler.py lines 144-145). -/
def needsSub (cset : List String) (node : JVal) : Bool :=
  match subTarget node with
  | some t => !(decide (t.2.2 ∈ cset))
  | none => false

/-- One node of the reconciliation loop (rp_handler.py lines 143-148):
substitute the first available checkpoint when the requested string name
is absent, otherwise leave the node untouched. -/
def reconEntry (cset : List String) (sub : String) (p : String × JVal) : String × JVal :=
  match subTarget p.2 with
  | some (fields, ins, r) =>
    if r ∈ cset then p
    else (p.1, .jobj (jset fields "inputs" (.jobj (jset ins "ckpt_name" (.jstr sub)))))
  | none => p

/-- A reconciliation note. The source formats it as the log string
`node <id>: ckpt_name <requested> not found; using <substituted>.`;
the embedding records the three fields it mentions. -/
structure ReconNote where
  nodeId : String
  requested : String
  substituted : String
deriving DecidableEq

/-- The note emitted for one node of the reconciliation loop, if any
(rp_handler.py line 148): exactly the substituted nodes get one. -/
def reconNote (cset : List String) (sub : String) (p : String × JVal) : Option ReconNote :=
  match subTarget p.2 with
  | some (_, _, r) => if r ∈ cset then none else some ⟨p.1, r, sub⟩
  | none => none

/-- The reconciliation loop over the workflow's nodes in order,
functionalizing the in-place mutation of `reconcile_ckpt_names`
(rp_handler.py lines 143-148). -/
def reconGo (cset : List String) (sub : String) : Workflow → Workflow × List ReconNote
  | [] => ([], [])
  | p :: rest =>
    let q := reconEntry cset sub p
    let n := reconNote cset sub p
    let r := reconGo cset sub rest
    (q :: r.1, match n with | some note => note :: r.2 | none => r.2)

/-- `reconcile_ckpt_names` (rp_handler.py lines 133-149): a no-op when
no checkpoints are available; otherwise substitute `available_ckpts[0]`
for every absent string reference, collecting one note each. -/
def reconcileCkpt (wf : Workflow) (avail : List String) : Workflow × List ReconNote :=
  match avail with
  | [] => (wf, [])
  | sub :: _ => reconGo avail sub wf

/-- The graph-patching step of `handler` (rp_handler.py lines 381-389):
a truthy `FORCED_CKPT` forces every loader node's reference and skips
reconciliation; otherwise reconcile against the inventory. -/
def patchWorkflow (forced : Option String) (inv : List String) (wf : Workflow) :
    Workflow × List ReconNote :=
  match forced with
  | some c => if c ≠ "" then (applyForced c wf, []) else reconcileCkpt wf inv
  | none => reconcileCkpt wf inv

/-- Stable insertion into a sorted list: `a` is placed before the first
element `b` with `le a b`. -/
def insertBy {α : Type} (le : α → α → Bool) (a : α) : List α → List α
  | [] => [a]
  | b :: rest => if le a b then a :: b :: rest else b :: insertBy le a rest

/-- A stable sort by the boolean relation `le`, modeling Python's
stable `sorted`. -/
def sortBy {α : Type} (le : α → α → Bool) : List α → List α
  | [] => []
  | a :: rest => insertBy le a (sortBy le rest)

/-- `str.strip()` at the character level (Python strips a slightly
larger whitespace class; manifests use ASCII whitespace, which
`Char.isWhitespace` covers). -/
def trimChars (l : List Char) : List Char :=
  ((l.dropWhile Char.isWhitespace).reverse.dropWhile Char.isWhitespace).reverse

/-- `str.strip()` as a string-to-string map. -/
def strTrim (s : String) : String := ⟨trimChars s.data⟩

/-- `str.lower()` at the character level, for extension comparison. -/
def lowerStr (s : String) : String := ⟨s.data.map Char.toLower⟩

/-- Splitting a relative path on `/`, accumulator style. -/
def splitSlashAux : List Char → List Char → List (List Char)
  | [], acc => [acc.reverse]
  | c :: rest, acc =>
    if c = '/' then acc.reverse :: splitSlashAux rest []
    else splitSlashAux rest (c :: acc)

/-- A relative path string as its component list, mirroring how
`pathlib` resolves `MODELS_DIR / line` to nested components. -/
def splitPath (s : String) : List String := (splitSlashAux s.data []).map (fun l => ⟨l⟩)

/-- The name a model-root file contributes to the `checkpoints`
inventory: `list_local_models` globs the files directly inside
`MODELS_DIR/checkpoints` (rp_handler.py lines 88-100), i.e. the files
whose component path is `checkpoints/<name>`. -/
def ckptEntryName : List String → Option String
  | ["checkpoints", n] => some n
  | _ => none

/-- The `checkpoints` entry of `list_local_models` (rp_handler.py line
100): the filenames directly under the checkpoints directory, sorted
lexicographically.  `fs` is the set of files under the model root, as
component paths. -/
def listCheckpoints (fs : List (List String)) : List String :=
  sortBy (fun a b => decide (a ≤ b)) (fs.filterMap ckptEntryName)

/-- Configuration read by `sync_models_from_s3`: the optional bucket
(`S3_BUCKET`, skipped when unset or empty), whether the manifest file
exists, and the manifest's lines. -/
structure SyncCfg where
  bucket : Option String
  manifestExists : Bool
  lines : List String

/-- Whether a manifest line is skipped (rp_handler.py lines 58-60):
blank after stripping, or a `#` comment. -/
def skipLine (raw : String) : Bool :=
  match trimChars raw.data with
  | [] => true
  | c :: _ => c = '#'

/-- The manifest loop of `sync_models_from_s3` (rp_handler.py lines
56-80) over the model-root filesystem `fs` (component paths of existing
files). The destination of a line is `MODELS_DIR / line`, i.e. the
line's component path; `fetchOk` tells whether the `aws s3 cp` of a
given relative path succeeds (on success the destination file now
exists; on failure the error is logged and the loop continues).
Returns the resulting filesystem and the stripped relative paths for
which a fetch was attempted. -/
def syncGo (fetchOk : String → Bool) :
    List String → List (List String) → List (List String) × List String
  | [], fs => (fs, [])
  | raw :: rest, fs =>
    let line := strTrim raw
    if skipLine raw then syncGo fetchOk rest fs
    else if splitPath line ∈ fs then syncGo fetchOk rest fs
    else
      let fs2 := if fetchOk line then fs ++ [splitPath line] else fs
      let r := syncGo fetchOk rest fs2
      (r.1, line :: r.2)

/-- `sync_models_from_s3` (rp_handler.py lines 46-80): a no-op when no
bucket is configured (a set-but-empty `S3_BUCKET` is falsy) or the
manifest file is absent. -/
def syncModels (cfg : SyncCfg) (fetchOk : String → Bool) (fs : List (List String)) :
    List (List String) × List String :=
  match cfg.bucket with
  | none => (fs, [])
  | some b => if b = "" then (fs, []) else
      if cfg.manifestExists then syncGo fetchOk cfg.lines fs else (fs, [])

/-- A file under the output directory. `dir` is the list of
subdirectory components between `OUT_DIR` and the file (`[]` for a
top-level file), `ext` the filename suffix as `pathlib` computes it,
`mtime` the modification time, `unlinkOk` whether deleting it succeeds,
`encodeOk` whether reading and base64-encoding it succeeds. -/
structure OutFile where
  dir : List String
  name : String
  ext : String
  mtime : Nat
  unlinkOk : Bool
  encodeOk : Bool
deriving DecidableEq

/-- The fixed image-extension set (rp_handler.py line 314). -/
def imageExts : List String := [".png", ".jpg", ".jpeg", ".webp"]

/-- `p.suffix.lower() in exts` (rp_handler.py line 317). -/
def isImage (f : OutFile) : Bool :=
  decide (lowerStr f.ext ∈ imageExts)

/-- The pre-run clear of the output directory (rp_handler.py lines
266-271): `OUT_DIR.glob("*")` lists only top-level entries, only files
are unlinked, and a failed unlink is logged and ignored.  This returns
the surviving files: everything in a subdirectory, plus top-level files
whose deletion failed. -/
def clearOutDir (fs : List OutFile) : List OutFile :=
  fs.filter (fun f => !(f.dir.isEmpty && f.unlinkOk))

/-- The top-level files the pre-run clear successfully deletes. -/
def removedByClear (fs : List OutFile) : List OutFile :=
  fs.filter (fun f => f.dir.isEmpty && f.unlinkOk)

/-- Outcome of `_wait_for_port_or_crash` (rp_handler.py lines 224-257),
remembering which loop iteration decided it. -/
inductive WaitOutcome where
  | opened (k : Nat)
  | crashed (k : Nat) (rc : Int)
  | timedOut
deriving DecidableEq

/-- `_wait_for_port_or_crash` (rp_handler.py lines 224-257) as a
fuel-indexed loop: at iteration `k` the process is polled first
(`procRc k = some rc` means it has exited with code `rc`, ending the
wait immediately), then a TCP connect is tried (`portOpen k`); the
deadline is the fuel running out. -/
def waitForPortOrCrash (procRc : Nat → Option Int) (portOpen : Nat → Bool) :
    Nat → Nat → WaitOutcome
  | 0, _ => .timedOut
  | fuel + 1, k =>
    match procRc k with
    | some rc => .crashed k rc
    | none =>
      if portOpen k then .opened k
      else waitForPortOrCrash procRc portOpen fuel (k + 1)

/-- The boolean the Python function actually returns: `True` only when
the port opened; a crash and a deadline expiry both return `False`. -/
def wRet : WaitOutcome → Bool
  | .opened _ => true
  | _ => false

/-- The readiness deadline in loop iterations (`timeout=300` seconds of
wall time in the source). -/
def waitFuel : Nat := 600

/-- The completion-poll deadline in loop iterations (300 seconds at a
0.5 second interval, rp_handler.py lines 313-320). -/
def pollFuel : Nat := 600

/-- The completion-polling loop (rp_handler.py lines 313-320):
`imgsAt k` is the glob-plus-extension-filter scan at iteration `k`; the
loop returns the first non-empty scan, or the (empty) last scan when
the deadline elapses.  There is no baseline snapshot: any non-empty
scan signals completion. -/
def pollImages (imgsAt : Nat → List OutFile) : Nat → Nat → List OutFile
  | 0, _ => []
  | fuel + 1, k =>
    if (imgsAt k).isEmpty then pollImages imgsAt fuel (k + 1) else imgsAt k

/-- Outcome of `requests.post` (rp_handler.py line 303): either a
raised exception (connection error, read timeout, ...) or a response
with a status code. -/
inductive PostOutcome where
  | exn
  | status (code : Nat)
deriving DecidableEq

/-- The environment one `run_comfy_workflow` call executes in: the
initial output-directory contents, the process-exit and port oracles
driving the readiness wait, the HTTP submission outcome, the files the
engine writes (with the poll iteration at which each appears), and
whether the process exits within `proc.wait(timeout=5)` after a
graceful terminate. -/
structure RunEnv where
  fs0 : List OutFile
  procRc : Nat → Option Int
  portOpen : Nat → Bool
  post : PostOutcome
  appear : List (Nat × OutFile)
  exitsOnTerm : Bool

/-- The output-directory contents at poll iteration `k`: the survivors
of the pre-run clear plus every engine-written file that has appeared
by then. -/
def filesAt (e : RunEnv) (k : Nat) : List OutFile :=
  clearOutDir e.fs0 ++ (e.appear.filter (fun a => decide (a.1 ≤ k))).map (fun a => a.2)

/-- The image files the poll scan sees at iteration `k`
(rp_handler.py line 317). -/
def imgsAt (e : RunEnv) (k : Nat) : List OutFile :=
  (filesAt e k).filter isImage

/-- Observable actions of a job, in program order. `unlink` records a
successful deletion by the pre-run clear, `launch` the `Popen` of the
engine, `logExitedEarly` the `server exited early` log line of the
crash branch, `post` the HTTP submission attempt, `terminate` and
`kill` the teardown calls. `fetch` records an attempted S3 copy. -/
inductive Ev where
  | fetch (relpath : String)
  | unlink (f : OutFile)
  | launch
  | logExitedEarly (rc : Int)
  | post
  | terminate
  | kill
deriving DecidableEq

/-- Errors `run_comfy_workflow` can raise. `startupFail` is the
`RuntimeError("ComfyUI server did not open port")`, `submitFail` the
`RuntimeError("submit failed: ...")`, `postExn` an exception propagated
out of `requests.post` itself, `noImages` the
`RuntimeError("no images produced; ...")`. -/
inductive Err where
  | startupFail
  | submitFail (code : Nat)
  | postExn
  | noImages
deriving DecidableEq

/-- The teardown block (rp_handler.py lines 323-327): `terminate`, then
`wait(timeout=5)`; if that fails to see the process exit, `kill`. -/
def teardownEvs (e : RunEnv) : List Ev :=
  if e.exitsOnTerm then [Ev.terminate] else [Ev.terminate, Ev.kill]

/-- `sorted(images, key=lambda p: p.stat().st_mtime, reverse=True)`
(rp_handler.py line 330): a stable descending sort by mtime. -/
def sortDesc (xs : List OutFile) : List OutFile :=
  sortBy (fun a b => decide (b.mtime ≤ a.mtime)) xs

/-- The collection step (rp_handler.py lines 330-338): the 8 newest
images are selected and each is read and encoded, a per-file failure
being logged and skipped. -/
def collectImages (images : List OutFile) : List OutFile :=
  ((sortDesc images).take 8).filter (fun f => f.encodeOk)

/-- `run_comfy_workflow` (rp_handler.py lines 263-344).  The submitted
body `wfBody` does not influence the modeled dynamics (the engine's
response and outputs are the environment's oracles).  Returns the
collected images or the raised error, together with the trace of
observable actions.  Note the two paths with no teardown: the startup
failure calls only `proc.kill()`, and an exception out of
`requests.post` propagates with the process still running. -/
def runComfyWorkflow (wfBody : Workflow) (e : RunEnv) :
    Except Err (List OutFile) × List Ev :=
  let evs0 := (removedByClear e.fs0).map Ev.unlink ++ [Ev.launch]
  match waitForPortOrCrash e.procRc e.portOpen waitFuel 0 with
  | .crashed _ rc => (Except.error Err.startupFail, evs0 ++ [Ev.logExitedEarly rc, Ev.kill])
  | .timedOut => (Except.error Err.startupFail, evs0 ++ [Ev.kill])
  | .opened _ =>
    match e.post with
    | .exn => (Except.error Err.postExn, evs0 ++ [Ev.post])
    | .status code =>
      if code ≠ 200 then
        (Except.error (Err.submitFail code), evs0 ++ [Ev.post] ++ teardownEvs e)
      else
        let images := pollImages (imgsAt e) pollFuel 0
        let evs1 := evs0 ++ [Ev.post] ++ teardownEvs e
        let got := collectImages images
        if got.isEmpty then (Except.error Err.noImages, evs1)
        else (Except.ok got, evs1)

/-- The `workflow` value of the job request: either a JSON string still
to be parsed or an already-parsed graph. -/
inductive WfIn where
  | raw (s : String)
  | parsed (wf : Workflow)

/-- Errors the handler can surface. -/
inductive HErr where
  | noCheckpoints
  | noWorkflow
  | badJson
  | run (e : Err)
deriving DecidableEq

/-- Everything one `handler` call depends on: the sync configuration
and fetch oracle, the model-root filesystem, the job's `workflow`
value, a JSON-parse oracle for string inputs, the `FORCED_CKPT`
setting, and the run environment. -/
structure World where
  sync : SyncCfg
  fetchOk : String → Bool
  modelsFs : List (List String)
  workflowIn : Option WfIn
  parse : String → Option Workflow
  forced : Option String
  runEnv : RunEnv

/-- `handler` (rp_handler.py lines 350-393): sync models, take the
inventory, fail hard when no checkpoints are visible, parse the
workflow, apply override or reconciliation, then run. -/
def handler (w : World) : Except HErr (List OutFile) × List Ev :=
  let s := syncModels w.sync w.fetchOk w.modelsFs
  let evs0 := s.2.map Ev.fetch
  let inv := listCheckpoints s.1
  if inv.isEmpty then (Except.error HErr.noCheckpoints, evs0)
  else
    match w.workflowIn with
    | none => (Except.error HErr.noWorkflow, evs0)
    | some (.raw str) =>
      match w.parse str with
      | none => (Except.error HErr.badJson, evs0)
      | some wf =>
        let pw := patchWorkflow w.forced inv wf
        let r := runComfyWorkflow pw.1 w.runEnv
        (r.1.mapError HErr.run, evs0 ++ r.2)
    | some (.parsed wf) =>
      let pw := patchWorkflow w.forced inv wf
      let r := runComfyWorkflow pw.1 w.runEnv
      (r.1.mapError HErr.run, evs0 ++ r.2)

/-! ### Concrete fixtures used by counterexamples and witnesses -/

/-- Inputs dict of the example loader node. -/
def insEx : List (String × JVal) := [("ckpt_name", JVal.jstr "missing.ckpt")]

/-- Fields of the example loader node. -/
def fieldsEx : List (String × JVal) :=
  [("class_type", JVal.jstr "CheckpointLoaderSimple"), ("inputs", JVal.jobj insEx)]

/-- An example checkpoint-loader node referencing an absent name. -/
def nodeEx : JVal := JVal.jobj fieldsEx

/-- A one-node example workflow. -/
def wfEx : Workflow := [("1", nodeEx)]

/-- Run environment: server comes up at once, `requests.post` raises. -/
def envPostExn : RunEnv := ⟨[], fun _ => none, fun _ => true, .exn, [], true⟩

/-- A pre-existing image file in a subdirectory of the output
directory: the top-level-only pre-run clear does not remove it. -/
def staleImg : OutFile := ⟨["sub"], "old.png", ".png", 5, true, true⟩

/-- Run environment: a stale subdirectory image is already present,
the server comes up, submission returns 200, the engine writes
nothing. -/
def envStale : RunEnv := ⟨[staleImg], fun _ => none, fun _ => true, .status 200, [], true⟩

/-- A freshly produced image whose read/encode fails. -/
def imgBadEncode : OutFile := ⟨[], "new.png", ".png", 7, true, false⟩

/-- Run environment: clean output directory, healthy startup and
submission, but no file ever appears (completion timeout). -/
def envNoOutput : RunEnv := ⟨[], fun _ => none, fun _ => true, .status 200, [], true⟩

/-- Run environment: healthy startup and submission, one image appears
immediately but cannot be encoded (empty collected result). -/
def envBadEncode : RunEnv := ⟨[], fun _ => none, fun _ => true, .status 200, [(0, imgBadEncode)], true⟩

/-- Process oracle: the engine exits with code 1 from iteration 2 on. -/
def prCrash : Nat → Option Int := fun k => if 2 ≤ k then some 1 else none

/-- Port oracle: the port never opens. -/
def poNever : Nat → Bool := fun _ => false

/-- Run environment: the engine crashes before opening its port. -/
def envCrash : RunEnv := ⟨[], prCrash, poNever, .status 200, [], true⟩

/-- Run environment: the engine stays alive but never opens its port. -/
def envNoPort : RunEnv := ⟨[], fun _ => none, poNever, .status 200, [], true⟩

/-- A deletable top-level image present before the job starts. -/
def oldTop : OutFile := ⟨[], "old.png", ".png", 1, true, true⟩

/-- Run environment: a top-level file is present, and the engine never
opens its port. -/
def envClearThenFail : RunEnv := ⟨[oldTop], fun _ => none, poNever, .status 200, [], true⟩

/-- Sync configuration with one manifest entry. -/
def cfgOneEntry : SyncCfg := ⟨some "b", true, ["a.ckpt"]⟩

/-- Fetch oracle: every fetch fails (for example, the object is absent
from the unchanged remote source both times). -/
def fetchNever : String → Bool := fun _ => false

/-- Fetch oracle: every fetch succeeds. -/
def fetchAlways : String → Bool := fun _ => true

/-- A world whose model root has no checkpoints at all. -/
def worldNoCkpt : World := ⟨⟨none, false, []⟩, fetchNever, [], none, fun _ => none, none, envPostExn⟩

/-! ### Helper lemmas -/

theorem jget_jset_self (fs : List (String × JVal)) (k : String) (v : JVal) :
    jget (jset fs k v) k = some v := by
  induction fs with
  | nil => simp [jset, jget]
  | cons p rest ih =>
      obtain ⟨k2, v2⟩ := p
      by_cases h : k2 = k
      · simp [jset, h, jget]
      · simp [jset, h, jget, ih]

theorem reconGo_eq (cset : List String) (sub : String) (wf : Workflow) :
    reconGo cset sub wf = (wf.map (reconEntry cset sub), wf.filterMap (reconNote cset sub)) := by
  induction wf with
  | nil => rfl
  | cons p rest ih =>
      cases h : reconNote cset sub p <;>
        simp [reconGo, ih, List.filterMap_cons, h]

theorem reconNote_isSome (cset : List String) (sub : String) (p : String × JVal) :
    (reconNote cset sub p).isSome = needsSub cset p.2 := by
  cases hT : subTarget p.2 with
  | none => simp [reconNote, needsSub, hT]
  | some t =>
      obtain ⟨fields, ins, r⟩ := t
      by_cases hr : r ∈ cset <;> simp [reconNote, needsSub, hT, hr]

theorem length_filterMap_isSome {α β : Type} (f : α → Option β) (l : List α) :
    (l.filterMap f).length = l.countP (fun a => (f a).isSome) := by
  induction l with
  | nil => rfl
  | cons a l ih => cases h : f a <;> simp [List.filterMap_cons, h, List.countP_cons, ih]

theorem reconNotes_length (cset : List String) (sub : String) (wf : Workflow) :
    (wf.filterMap (reconNote cset sub)).length = wf.countP (fun p => needsSub cset p.2) := by
  rw [length_filterMap_isSome]
  congr 1
  funext p
  exact reconNote_isSome cset sub p

theorem reconEntry_eq_self (cset : List String) (sub : String) (p : String × JVal)
    (h : needsSub cset p.2 = false) : reconEntry cset sub p = p := by
  cases hT : subTarget p.2 with
  | none => simp [reconEntry, hT]
  | some t =>
      obtain ⟨fields, ins, r⟩ := t
      simp [needsSub, hT] at h
      simp [reconEntry, hT, h]

theorem reconEntry_subst (cset : List String) (sub : String) (p : String × JVal)
    (h : needsSub cset p.2 = true) :
    ckptNameOf (reconEntry cset sub p).2 = some (JVal.jstr sub) := by
  cases hT : subTarget p.2 with
  | none => simp [needsSub, hT] at h
  | some t =>
      obtain ⟨fields, ins, r⟩ := t
      simp [needsSub, hT] at h
      simp [reconEntry, hT, h, ckptNameOf, jget_jset_self]

theorem mem_insertBy {α : Type} (le : α → α → Bool) (a x : α) (l : List α) :
    x ∈ insertBy le a l ↔ x = a ∨ x ∈ l := by
  induction l with
  | nil => simp [insertBy]
  | cons b rest ih =>
      by_cases h : le a b = true
      · simp [insertBy, h]
      · rw [insertBy, if_neg h]
        simp [ih]
        tauto

theorem mem_sortBy {α : Type} (le : α → α → Bool) (x : α) (l : List α) :
    x ∈ sortBy le l ↔ x ∈ l := by
  induction l with
  | nil => simp [sortBy]
  | cons a rest ih => simp [sortBy, mem_insertBy, ih]

theorem pairwise_insertBy {α : Type} (le : α → α → Bool)
    (htrans : ∀ a b c, le a b = true → le b c = true → le a c = true)
    (htot : ∀ a b, le a b = false → le b a = true)
    (a : α) (l : List α) (h : l.Pairwise (fun x y => le x y = true)) :
    (insertBy le a l).Pairwise (fun x y => le x y = true) := by
  induction l with
  | nil => simp [insertBy]
  | cons b rest ih =>
      rw [List.pairwise_cons] at h
      by_cases hle : le a b = true
      · rw [insertBy, if_pos hle, List.pairwise_cons]
        constructor
        · intro x hx
          rcases List.mem_cons.mp hx with h2 | h2
          · rw [h2]
            exact hle
          · exact htrans a b x hle (h.1 x h2)
        · rw [List.pairwise_cons]
          exact h
      · rw [insertBy, if_neg hle, List.pairwise_cons]
        constructor
        · intro x hx
          rcases (mem_insertBy le a x rest).mp hx with h2 | h2
          · rw [h2]
            exact htot a b (Bool.not_eq_true _ ▸ hle)
          · exact h.1 x h2
        · exact ih h.2

theorem pairwise_sortBy {α : Type} (le : α → α → Bool)
    (htrans : ∀ a b c, le a b = true → le b c = true → le a c = true)
    (htot : ∀ a b, le a b = false → le b a = true)
    (l : List α) : (sortBy le l).Pairwise (fun x y => le x y = true) := by
  induction l with
  | nil => simp [sortBy]
  | cons a rest ih => exact pairwise_insertBy le htrans htot a _ ih

theorem listCheckpoints_pairwise (fs : List (List String)) :
    (listCheckpoints fs).Pairwise (· ≤ ·) := by
  have h := pairwise_sortBy (fun a b : String => decide (a ≤ b))
    (fun a b c hab hbc =>
      decide_eq_true (le_trans (of_decide_eq_true hab) (of_decide_eq_true hbc)))
    (fun a b hab => decide_eq_true (le_of_not_le (of_decide_eq_false hab)))
    (fs.filterMap ckptEntryName)
  exact h.imp (fun hab => of_decide_eq_true hab)

theorem syncGo_fetched_not_present (f : String → Bool) :
    ∀ (lines : List String) (fs : List (List String)),
    ∀ l ∈ (syncGo f lines fs).2, splitPath l ∉ fs := by
  intro lines
  induction lines with
  | nil => intro fs l hl; simp [syncGo] at hl
  | cons raw rest ih =>
      intro fs l hl
      by_cases hskip : skipLine raw = true
      · exact ih fs l (by simpa [syncGo, hskip] using hl)
      · by_cases hmem : splitPath (strTrim raw) ∈ fs
        · exact ih fs l (by simpa [syncGo, hskip, hmem] using hl)
        · have hl2 : l = strTrim raw ∨
              l ∈ (syncGo f rest
                (if f (strTrim raw) = true
                  then fs ++ [splitPath (strTrim raw)] else fs)).2 := by
            simpa [syncGo, hskip, hmem] using hl
          rcases hl2 with h2 | h2
          · rw [h2]
            exact hmem
          · have h4 := ih _ l h2
            intro h5
            apply h4
            by_cases hf : f (strTrim raw) = true
            · rw [if_pos hf]
              exact List.mem_append_left _ h5
            · rw [if_neg hf]
              exact h5

theorem syncGo_grows (f : String → Bool) :
    ∀ (lines : List String) (fs : List (List String)),
    ∀ p ∈ fs, p ∈ (syncGo f lines fs).1 := by
  intro lines
  induction lines with
  | nil => intro fs p hp; simpa [syncGo] using hp
  | cons raw rest ih =>
      intro fs p hp
      by_cases hskip : skipLine raw = true
      · simpa [syncGo, hskip] using ih fs p hp
      · by_cases hmem : splitPath (strTrim raw) ∈ fs
        · simpa [syncGo, hskip, hmem] using ih fs p hp
        · have h2 : p ∈ (if f (strTrim raw) then fs ++ [splitPath (strTrim raw)] else fs) := by
            by_cases hf : f (strTrim raw) = true
            · rw [if_pos hf]
              exact List.mem_append_left _ hp
            · rw [if_neg hf]
              exact hp
          simpa [syncGo, hskip, hmem] using ih _ p h2

theorem syncGo_covers (f : String → Bool) :
    ∀ (lines : List String) (fs : List (List String)),
    (∀ raw ∈ lines, skipLine raw = false → f (strTrim raw) = true) →
    ∀ raw ∈ lines, skipLine raw = false →
    splitPath (strTrim raw) ∈ (syncGo f lines fs).1 := by
  intro lines
  induction lines with
  | nil => intro fs hOk raw hraw; simp at hraw
  | cons raw2 rest ih =>
      intro fs hOk raw hraw hskip
      have hOk2 : ∀ r ∈ rest, skipLine r = false → f (strTrim r) = true :=
        fun r hr => hOk r (List.mem_cons_of_mem _ hr)
      rcases List.mem_cons.mp hraw with h2 | h2
      · subst h2
        have hsk2 : ¬(skipLine raw = true) := by rw [hskip]; exact Bool.false_ne_true
        by_cases hmem : splitPath (strTrim raw) ∈ fs
        · have h3 := syncGo_grows f rest fs _ hmem
          simpa [syncGo, hsk2, hmem] using h3
        · have hf : f (strTrim raw) = true := hOk raw (List.mem_cons_self _ _) hskip
          have h3 : splitPath (strTrim raw) ∈ fs ++ [splitPath (strTrim raw)] :=
            List.mem_append_right _ (List.mem_singleton.mpr rfl)
          have h4 := syncGo_grows f rest _ _ h3
          simpa [syncGo, hsk2, hmem, hf] using h4
      · by_cases hsk2 : skipLine raw2 = true
        · simpa [syncGo, hsk2] using ih fs hOk2 raw h2 hskip
        · by_cases hmem : splitPath (strTrim raw2) ∈ fs
          · simpa [syncGo, hsk2, hmem] using ih fs hOk2 raw h2 hskip
          · simpa [syncGo, hsk2, hmem] using ih _ hOk2 raw h2 hskip

theorem syncGo_no_fetch_when_covered (f : String → Bool) :
    ∀ (lines : List String) (fs : List (List String)),
    (∀ raw ∈ lines, skipLine raw = false → splitPath (strTrim raw) ∈ fs) →
    (syncGo f lines fs).2 = [] := by
  intro lines
  induction lines with
  | nil => intro fs hcov; rfl
  | cons raw rest ih =>
      intro fs hcov
      have hcov2 : ∀ r ∈ rest, skipLine r = false → splitPath (strTrim r) ∈ fs :=
        fun r hr => hcov r (List.mem_cons_of_mem _ hr)
      by_cases hskip : skipLine raw = true
      · simpa [syncGo, hskip] using ih fs hcov2
      · have hmem : splitPath (strTrim raw) ∈ fs :=
          hcov raw (List.mem_cons_self _ _) (Bool.not_eq_true _ ▸ hskip)
        simpa [syncGo, hskip, hmem] using ih fs hcov2

theorem sortDesc_pairwise (xs : List OutFile) :
    (sortDesc xs).Pairwise (fun a b => b.mtime ≤ a.mtime) := by
  have h := pairwise_sortBy (fun a b : OutFile => decide (b.mtime ≤ a.mtime))
    (fun a b c hab hbc =>
      decide_eq_true (le_trans (of_decide_eq_true hbc) (of_decide_eq_true hab)))
    (fun a b hab => decide_eq_true (le_of_not_le (of_decide_eq_false hab)))
    xs
  exact h.imp (fun hab => of_decide_eq_true hab)

theorem wait_never (pr : Nat → Option Int) (po : Nat → Bool)
    (hpr : ∀ k, pr k = none) (hpo : ∀ k, po k = false) :
    ∀ fuel s, waitForPortOrCrash pr po fuel s = WaitOutcome.timedOut := by
  intro fuel
  induction fuel with
  | zero => intro s; rfl
  | succ n ih => intro s; simp [waitForPortOrCrash, hpr, hpo, ih]

theorem wait_crashes_at (pr : Nat → Option Int) (po : Nat → Bool) :
    ∀ (k s fuel : Nat) (rc : Int), k < fuel →
    (∀ j, j < k → pr (s + j) = none ∧ po (s + j) = false) →
    pr (s + k) = some rc →
    waitForPortOrCrash pr po fuel s = WaitOutcome.crashed (s + k) rc := by
  intro k
  induction k with
  | zero =>
      intro s fuel rc hk hpre hcrash
      rw [Nat.add_zero] at hcrash
      cases fuel with
      | zero => omega
      | succ n => simp [waitForPortOrCrash, hcrash]
  | succ k ih =>
      intro s fuel rc hk hpre hcrash
      cases fuel with
      | zero => omega
      | succ n =>
          have h0 := hpre 0 (Nat.succ_pos k)
          rw [Nat.add_zero] at h0
          have hrest : ∀ j, j < k → pr (s + 1 + j) = none ∧ po (s + 1 + j) = false := by
            intro j hj
            have := hpre (j + 1) (by omega)
            rwa [show s + (j + 1) = s + 1 + j by omega] at this
          have hc2 : pr (s + 1 + k) = some rc := by
            rwa [show s + (k + 1) = s + 1 + k by omega] at hcrash
          have h2 := ih (s + 1) n rc (by omega) hrest hc2
          rw [waitForPortOrCrash, h0.1]
          simp only [h0.2, Bool.false_eq_true, if_false]
          rw [h2]
          congr 1
          omega

theorem poll_stays_empty (f : Nat → List OutFile) (h : ∀ j, f j = []) :
    ∀ fuel s, pollImages f fuel s = [] := by
  intro fuel
  induction fuel with
  | zero => intro s; rfl
  | succ n ih => intro s; simp [pollImages, h, ih]

theorem poll_empty_of_bounded (f : Nat → List OutFile) :
    ∀ fuel s, (∀ j, s ≤ j → j < s + fuel → f j = []) → pollImages f fuel s = [] := by
  intro fuel
  induction fuel with
  | zero => intro s h; rfl
  | succ n ih =>
      intro s h
      have h0 : f s = [] := h s (le_refl s) (by omega)
      rw [pollImages, h0]
      simp only [List.isEmpty_nil, if_true]
      exact ih (s + 1) (fun j h1 h2 => h j (by omega) (by omega))

theorem poll_first_hit (f : Nat → List OutFile) :
    ∀ (k fuel s : Nat), k < fuel →
    (∀ j, j < k → f (s + j) = []) → f (s + k) ≠ [] →
    pollImages f fuel s = f (s + k) := by
  intro k
  induction k with
  | zero =>
      intro fuel s hk hpre hhit
      rw [Nat.add_zero] at hhit
      cases fuel with
      | zero => omega
      | succ n =>
          rw [pollImages, if_neg (by simpa [List.isEmpty_iff] using hhit)]
          rw [Nat.add_zero]
  | succ k ih =>
      intro fuel s hk hpre hhit
      cases fuel with
      | zero => omega
      | succ n =>
          have h0 : f s = [] := by
            have := hpre 0 (Nat.succ_pos k)
            rwa [Nat.add_zero] at this
          rw [pollImages, h0]
          simp only [List.isEmpty_nil, if_true]
          have hrest : ∀ j, j < k → f (s + 1 + j) = [] := by
            intro j hj
            have := hpre (j + 1) (by omega)
            rwa [show s + (j + 1) = s + 1 + j by omega] at this
          have hh2 : f (s + 1 + k) ≠ [] := by
            rwa [show s + (k + 1) = s + 1 + k by omega] at hhit
          have h2 := ih n (s + 1) (by omega) hrest hh2
          rw [h2]
          congr 1
          omega

theorem run_result_startup (wf : Workflow) (e : RunEnv)
    (hwait : waitForPortOrCrash e.procRc e.portOpen waitFuel 0 = WaitOutcome.timedOut) :
    runComfyWorkflow wf e =
      (Except.error Err.startupFail,
       (removedByClear e.fs0).map Ev.unlink ++ [Ev.launch] ++ [Ev.kill]) := by
  simp [runComfyWorkflow, hwait]

theorem run_result_crashed (wf : Workflow) (e : RunEnv) (k : Nat) (rc : Int)
    (hwait : waitForPortOrCrash e.procRc e.portOpen waitFuel 0 = WaitOutcome.crashed k rc) :
    runComfyWorkflow wf e =
      (Except.error Err.startupFail,
       (removedByClear e.fs0).map Ev.unlink ++ [Ev.launch]
         ++ [Ev.logExitedEarly rc, Ev.kill]) := by
  simp [runComfyWorkflow, hwait]

theorem run_result_post_exn (wf : Workflow) (e : RunEnv) (k : Nat)
    (hwait : waitForPortOrCrash e.procRc e.portOpen waitFuel 0 = WaitOutcome.opened k)
    (hp : e.post = PostOutcome.exn) :
    runComfyWorkflow wf e =
      (Except.error Err.postExn,
       (removedByClear e.fs0).map Ev.unlink ++ [Ev.launch] ++ [Ev.post]) := by
  simp [runComfyWorkflow, hwait, hp]

theorem run_result_submit_fail (wf : Workflow) (e : RunEnv) (k code : Nat)
    (hwait : waitForPortOrCrash e.procRc e.portOpen waitFuel 0 = WaitOutcome.opened k)
    (hp : e.post = PostOutcome.status code) (hc : code ≠ 200) :
    runComfyWorkflow wf e =
      (Except.error (Err.submitFail code),
       (removedByClear e.fs0).map Ev.unlink ++ [Ev.launch] ++ [Ev.post]
         ++ teardownEvs e) := by
  simp [runComfyWorkflow, hwait, hp, hc]

theorem run_result_opened_200 (wf : Workflow) (e : RunEnv) (k : Nat)
    (hwait : waitForPortOrCrash e.procRc e.portOpen waitFuel 0 = WaitOutcome.opened k)
    (hp : e.post = PostOutcome.status 200) :
    runComfyWorkflow wf e =
      ((if (collectImages (pollImages (imgsAt e) pollFuel 0)).isEmpty
          then Except.error Err.noImages
          else Except.ok (collectImages (pollImages (imgsAt e) pollFuel 0))),
       (removedByClear e.fs0).map Ev.unlink ++ [Ev.launch] ++ [Ev.post]
         ++ teardownEvs e) := by
  simp only [runComfyWorkflow, hwait, hp]
  rw [if_neg (show ¬(200 ≠ 200) by omega)]
  by_cases hgot : (collectImages (pollImages (imgsAt e) pollFuel 0)).isEmpty = true <;>
    simp [hgot]

/-! ### Claim theorems -/

/-- C7: the collector returns at most 8 images; the returned list is
in descending modification-time order; every returned image is one of
the listed image files; and every file the selection keeps is at least
as recently modified as every file it drops.  Determinism is immediate:
the collector is a pure function of the listed files and their
modification times. -/
theorem collector_at_most_8_newest (images : List OutFile) :
    (collectImages images).length ≤ 8 ∧
    (collectImages images).Pairwise (fun a b => b.mtime ≤ a.mtime) ∧
    (∀ p ∈ collectImages images, p ∈ images) ∧
    (∀ p ∈ (sortDesc images).take 8, ∀ q ∈ (sortDesc images).drop 8,
      q.mtime ≤ p.mtime) := by
  have hsub : List.Sublist (collectImages images) (sortDesc images) :=
    (List.filter_sublist _).trans (List.take_sublist _ _)
  refine ⟨?_, ?_, ?_, ?_⟩
  · exact le_trans (List.length_filter_le _ _) (List.length_take_le _ _)
  · exact (sortDesc_pairwise images).sublist hsub
  · intro p hp
    exact (mem_sortBy _ p images).mp (hsub.subset hp)
  · intro p hp q hq
    have h := sortDesc_pairwise images
    rw [← List.take_append_drop 8 (sortDesc images), List.pairwise_append] at h
    exact h.2.2 p hp q hq

/-- C1 counterexample: with a healthy startup and an exception raised
by `requests.post`, the error propagates and the trace contains neither
a `terminate` nor a `kill`: the engine subprocess is not torn down. -/
theorem run_no_teardown_on_post_exn :
    (runComfyWorkflow [] envPostExn).1 = Except.error Err.postExn ∧
    Ev.terminate ∉ (runComfyWorkflow [] envPostExn).2 ∧
    Ev.kill ∉ (runComfyWorkflow [] envPostExn).2 := by
  refine ⟨rfl, ?_, ?_⟩ <;> decide

/-- C1 amended: on the paths where the submission returned a response
— success, non-200 response, and completion timeout alike — teardown
runs: a graceful `terminate` is attempted and, when the process does
not exit within the bounded wait, a forced `kill` follows.  But when
`requests.post` raises, the exception propagates with no `terminate`
and no `kill`: teardown is not guaranteed on every exit path. -/
theorem run_teardown_exactly_on_reply (wf : Workflow) (e : RunEnv) (k : Nat)
    (hwait : waitForPortOrCrash e.procRc e.portOpen waitFuel 0 = WaitOutcome.opened k) :
    (e.post ≠ PostOutcome.exn →
      Ev.terminate ∈ (runComfyWorkflow wf e).2 ∧
      (e.exitsOnTerm = false → Ev.kill ∈ (runComfyWorkflow wf e).2)) ∧
    (e.post = PostOutcome.exn →
      (runComfyWorkflow wf e).1 = Except.error Err.postExn ∧
      Ev.terminate ∉ (runComfyWorkflow wf e).2 ∧
      Ev.kill ∉ (runComfyWorkflow wf e).2) := by
  constructor
  · intro hne
    cases hp : e.post with
    | exn => exact absurd hp hne
    | status code =>
        by_cases hc : code = 200
        · subst hc
          rw [run_result_opened_200 wf e k hwait hp]
          constructor
          · simp [teardownEvs]
            cases e.exitsOnTerm <;> simp
          · intro hterm
            simp [teardownEvs, hterm]
        · rw [run_result_submit_fail wf e k code hwait hp hc]
          constructor
          · simp [teardownEvs]
            cases e.exitsOnTerm <;> simp
          · intro hterm
            simp [teardownEvs, hterm]
  · intro hp
    rw [run_result_post_exn wf e k hwait hp]
    refine ⟨rfl, ?_, ?_⟩ <;> simp

/-- C1 witness: the amended theorem applied to the concrete
environment whose submission raises. -/
theorem run_teardown_exactly_on_reply_witness :
    (runComfyWorkflow [] envPostExn).1 = Except.error Err.postExn ∧
    Ev.terminate ∉ (runComfyWorkflow [] envPostExn).2 := by
  have h := (run_teardown_exactly_on_reply [] envPostExn 0 rfl).2 rfl
  exact ⟨h.1, h.2.1⟩

/-- C2 counterexample: a pre-submission image file in a subdirectory
of the output directory survives the top-level-only clear, triggers the
completion signal on the very first scan, and is returned as the final
collected image set — baseline exclusion does not hold. -/
theorem stale_file_completes_and_is_returned :
    staleImg ∈ envStale.fs0 ∧
    staleImg ∈ pollImages (imgsAt envStale) pollFuel 0 ∧
    (runComfyWorkflow [] envStale).1 = Except.ok [staleImg] := by
  refine ⟨by decide, by decide, rfl⟩

/-- C2 amended: no baseline snapshot is taken; completion is signaled
at the first poll iteration at which the set of image files anywhere
under the output directory is non-empty, and the signal is exactly that
scan.  Every image file present before submission that survives the
top-level clear (in particular every image file in a subdirectory) is
part of every scan, hence of the completion signal. -/
theorem completion_is_presence_only (e : RunEnv) (k : Nat) (hk : k < pollFuel)
    (hbefore : ∀ j, j < k → imgsAt e j = [])
    (hsig : imgsAt e k ≠ []) :
    pollImages (imgsAt e) pollFuel 0 = imgsAt e k ∧
    (∀ f ∈ clearOutDir e.fs0, isImage f = true → f ∈ imgsAt e k) := by
  constructor
  · have h := poll_first_hit (imgsAt e) k pollFuel 0 hk
      (fun j hj => by simpa using hbefore j hj) (by simpa using hsig)
    simpa using h
  · intro f hf himg
    rw [imgsAt, List.mem_filter]
    refine ⟨?_, himg⟩
    rw [filesAt]
    exact List.mem_append_left _ hf

/-- C2 witness: the amended theorem applied at the stale-file
environment, where the first scan is already non-empty. -/
theorem completion_is_presence_only_witness :
    pollImages (imgsAt envStale) pollFuel 0 = imgsAt envStale 0 ∧
    staleImg ∈ imgsAt envStale 0 := by
  have h := completion_is_presence_only envStale 0 (by decide)
    (fun j hj => absurd hj (Nat.not_lt_zero j)) (by decide)
  exact ⟨h.1, h.2 staleImg (by decide) (by decide)⟩

/-- C3 counterexample: a run where no output file ever appears
(completion timeout) and a run where completion was signaled but the
single image could not be encoded (empty result) fail with the same
`RuntimeError("no images produced; ...")`: there is no distinct
`CompletionTimeoutError`. -/
theorem timeout_and_empty_result_same_error :
    (runComfyWorkflow [] envNoOutput).1 = Except.error Err.noImages ∧
    (runComfyWorkflow [] envBadEncode).1 = Except.error Err.noImages ∧
    (runComfyWorkflow [] envNoOutput).1 = (runComfyWorkflow [] envBadEncode).1 := by
  have hpoll : pollImages (imgsAt envNoOutput) pollFuel 0 = [] :=
    poll_stays_empty _ (fun j => rfl) pollFuel 0
  have h1 := run_result_opened_200 [] envNoOutput 0 rfl rfl
  rw [hpoll] at h1
  have h2 : (runComfyWorkflow [] envNoOutput).1 = Except.error Err.noImages := by
    rw [h1]
    rfl
  have h3 : (runComfyWorkflow [] envBadEncode).1 = Except.error Err.noImages := rfl
  exact ⟨h2, h3, by rw [h2, h3]⟩

/-- C3 amended: if no image file appears in the output directory
before the completion deadline, the job fails — but with the same
generic no-images error that the empty-collection case raises after a
successful completion signal; the code does not distinguish a
completion timeout from an empty result. -/
theorem completion_timeout_generic_error (wf : Workflow) (e : RunEnv) (k : Nat)
    (hwait : waitForPortOrCrash e.procRc e.portOpen waitFuel 0 = WaitOutcome.opened k)
    (hp : e.post = PostOutcome.status 200)
    (hno : ∀ j, j < pollFuel → imgsAt e j = []) :
    (runComfyWorkflow wf e).1 = Except.error Err.noImages := by
  have h1 := run_result_opened_200 wf e k hwait hp
  have h2 : pollImages (imgsAt e) pollFuel 0 = [] :=
    poll_empty_of_bounded _ pollFuel 0 (fun j h3 h4 => hno j (by omega))
  rw [h2] at h1
  rw [h1]
  rfl

/-- C3 witness: the amended theorem applied at the environment where
nothing ever appears. -/
theorem completion_timeout_generic_error_witness :
    (runComfyWorkflow [] envNoOutput).1 = Except.error Err.noImages :=
  completion_timeout_generic_error [] envNoOutput 0 rfl rfl (fun j h => rfl)

/-- C4 counterexample: the run whose engine crashes at iteration 2 and
the run whose engine never opens its port are reported identically —
the wait loop returns the same `False` and `run_comfy_workflow` raises
the same startup error — so the crash case is not reported as an error
distinct from the deadline case. -/
theorem crash_and_timeout_reported_same :
    wRet (waitForPortOrCrash envCrash.procRc envCrash.portOpen waitFuel 0)
      = wRet (waitForPortOrCrash envNoPort.procRc envNoPort.portOpen waitFuel 0) ∧
    (runComfyWorkflow [] envCrash).1 = (runComfyWorkflow [] envNoPort).1 ∧
    (runComfyWorkflow [] envCrash).1 = Except.error Err.startupFail := by
  have hw1 : waitForPortOrCrash envCrash.procRc envCrash.portOpen waitFuel 0
      = WaitOutcome.crashed 2 1 := rfl
  have hw2 : waitForPortOrCrash envNoPort.procRc envNoPort.portOpen waitFuel 0
      = WaitOutcome.timedOut :=
    wait_never _ _ (fun k => rfl) (fun k => rfl) waitFuel 0
  have h1 := run_result_crashed [] envCrash 2 1 hw1
  have h2 := run_result_startup [] envNoPort hw2
  rw [hw1, hw2, h1, h2]
  exact ⟨rfl, rfl, rfl⟩

/-- C4 amended: if the engine process exits before its port is
observed open, the wait loop returns at that very iteration — strictly
before exhausting the readiness deadline — and the run fails with the
fatal startup error; however, the deadline case fails with the very
same `False` return and the very same startup error, the two cases
being distinguished only by the `server exited early` log line, which
is emitted exactly in the crash case. -/
theorem crash_returns_immediately (wf : Workflow) (pr : Nat → Option Int)
    (po : Nat → Bool) (k : Nat) (rc : Int) (hk : k < waitFuel)
    (hpre : ∀ j, j < k → pr j = none ∧ po j = false)
    (hcrash : pr k = some rc) :
    waitForPortOrCrash pr po waitFuel 0 = WaitOutcome.crashed k rc ∧
    wRet (waitForPortOrCrash pr po waitFuel 0) = false ∧
    (∀ e : RunEnv, e.procRc = pr → e.portOpen = po →
      (runComfyWorkflow wf e).1 = Except.error Err.startupFail ∧
      Ev.logExitedEarly rc ∈ (runComfyWorkflow wf e).2) ∧
    (∀ e2 : RunEnv, (∀ j, e2.procRc j = none) → (∀ j, e2.portOpen j = false) →
      wRet (waitForPortOrCrash e2.procRc e2.portOpen waitFuel 0) = false ∧
      (runComfyWorkflow wf e2).1 = Except.error Err.startupFail ∧
      (∀ rc2 : Int, Ev.logExitedEarly rc2 ∉ (runComfyWorkflow wf e2).2)) := by
  have hw : waitForPortOrCrash pr po waitFuel 0 = WaitOutcome.crashed k rc := by
    have h := wait_crashes_at pr po k 0 waitFuel rc hk
      (fun j hj => by simpa using hpre j hj) (by simpa using hcrash)
    simpa using h
  refine ⟨hw, by rw [hw]; rfl, ?_, ?_⟩
  · intro e hepr hepo
    have hwe : waitForPortOrCrash e.procRc e.portOpen waitFuel 0
        = WaitOutcome.crashed k rc := by rw [hepr, hepo, hw]
    rw [run_result_crashed wf e k rc hwe]
    exact ⟨rfl, by simp⟩
  · intro e2 hpr2 hpo2
    have hwe2 : waitForPortOrCrash e2.procRc e2.portOpen waitFuel 0
        = WaitOutcome.timedOut := wait_never _ _ hpr2 hpo2 waitFuel 0
    rw [run_result_startup wf e2 hwe2, hwe2]
    refine ⟨rfl, rfl, ?_⟩
    intro rc2
    simp

/-- C4 witness: the amended theorem applied at the crash-at-2
environment, with the never-opening environment as the deadline case. -/
theorem crash_returns_immediately_witness :
    waitForPortOrCrash envCrash.procRc envCrash.portOpen waitFuel 0
      = WaitOutcome.crashed 2 1 ∧
    (runComfyWorkflow [] envCrash).1 = Except.error Err.startupFail ∧
    (runComfyWorkflow [] envNoPort).1 = Except.error Err.startupFail := by
  have h := crash_returns_immediately [] prCrash poNever 2 1 (by decide)
    (fun j hj =>
      ⟨by show (if 2 ≤ j then some 1 else none) = none; rw [if_neg (by omega)], rfl⟩)
    rfl
  exact ⟨h.1, (h.2.2.1 envCrash rfl rfl).1,
    (h.2.2.2 envNoPort (fun j => rfl) (fun j => rfl)).2.1⟩

/-- C9 counterexample: with a deletable top-level file present and an
engine that never opens its port, the job does fail with the startup
error, but the output directory is not left untouched: the trace shows
the job deleted the pre-existing file before launching. -/
theorem startup_fail_after_clear :
    (runComfyWorkflow [] envClearThenFail).1 = Except.error Err.startupFail ∧
    Ev.unlink oldTop ∈ (runComfyWorkflow [] envClearThenFail).2 := by
  have hw : waitForPortOrCrash envClearThenFail.procRc envClearThenFail.portOpen
      waitFuel 0 = WaitOutcome.timedOut :=
    wait_never _ _ (fun k => rfl) (fun k => rfl) waitFuel 0
  rw [run_result_startup [] envClearThenFail hw]
  exact ⟨rfl, by decide⟩

/-- C9 amended: when the engine never opens its port within the
readiness deadline, the job fails with the generic startup error (the
code has no `ServerStartupError` kind), and the only filesystem actions
of the run are the pre-run clear's deletions of top-level files — the
trace is exactly those unlinks, the launch, and the forced kill.
Files in subdirectories are untouched and nothing is created, but the
output directory is not left untouched whenever a deletable top-level
file was present. -/
theorem startup_fail_trace (wf : Workflow) (e : RunEnv)
    (hpr : ∀ k, e.procRc k = none) (hpo : ∀ k, e.portOpen k = false) :
    (runComfyWorkflow wf e).1 = Except.error Err.startupFail ∧
    (runComfyWorkflow wf e).2
      = (removedByClear e.fs0).map Ev.unlink ++ [Ev.launch] ++ [Ev.kill] := by
  rw [run_result_startup wf e (wait_never _ _ hpr hpo waitFuel 0)]
  exact ⟨rfl, rfl⟩

/-- C9 witness: the amended theorem applied at the environment with
one deletable top-level file; the trace deletes exactly that file. -/
theorem startup_fail_trace_witness :
    (runComfyWorkflow [] envClearThenFail).1 = Except.error Err.startupFail ∧
    (runComfyWorkflow [] envClearThenFail).2
      = [Ev.unlink oldTop, Ev.launch, Ev.kill] := by
  have h := startup_fail_trace [] envClearThenFail (fun k => rfl) (fun k => rfl)
  exact ⟨h.1, by rw [h.2]; decide⟩

/-- C5: for every workflow graph, reconciliation against the (sorted)
checkpoint inventory is the identity with zero notes when the inventory
is empty; when it is non-empty, its head is the lexicographically first
available name, every node is mapped by the per-node rule, exactly one
note is emitted per substituted node, nodes whose requested name is
present (or which have no string request) are left untouched, and every
substituted node's reference becomes that first available name. -/
theorem reconcile_rewrites_to_first (wf : Workflow) (fs : List (List String)) :
    (listCheckpoints fs = [] → reconcileCkpt wf (listCheckpoints fs) = (wf, [])) ∧
    (∀ sub rest, listCheckpoints fs = sub :: rest →
      (∀ x ∈ listCheckpoints fs, sub ≤ x) ∧
      (reconcileCkpt wf (listCheckpoints fs)).1
        = wf.map (reconEntry (listCheckpoints fs) sub) ∧
      (reconcileCkpt wf (listCheckpoints fs)).2
        = wf.filterMap (reconNote (listCheckpoints fs) sub) ∧
      (reconcileCkpt wf (listCheckpoints fs)).2.length
        = wf.countP (fun p => needsSub (listCheckpoints fs) p.2) ∧
      (∀ p : String × JVal, needsSub (listCheckpoints fs) p.2 = false →
        reconEntry (listCheckpoints fs) sub p = p) ∧
      (∀ p : String × JVal, needsSub (listCheckpoints fs) p.2 = true →
        ckptNameOf (reconEntry (listCheckpoints fs) sub p).2 = some (JVal.jstr sub) ∧
        (reconNote (listCheckpoints fs) sub p).isSome = true)) := by
  constructor
  · intro h
    rw [h]
    rfl
  · intro sub rest h
    have hpw := listCheckpoints_pairwise fs
    rw [h] at hpw
    rw [List.pairwise_cons] at hpw
    rw [h]
    refine ⟨?_, ?_, ?_, ?_, ?_, ?_⟩
    · intro x hx
      rcases List.mem_cons.mp hx with h2 | h2
      · exact le_of_eq h2.symm
      · exact hpw.1 x h2
    · simp [reconcileCkpt, reconGo_eq]
    · simp [reconcileCkpt, reconGo_eq]
    · have h3 : (reconcileCkpt wf (sub :: rest)).2
          = wf.filterMap (reconNote (sub :: rest) sub) := by
        simp [reconcileCkpt, reconGo_eq]
      rw [h3, reconNotes_length]
    · intro p hp
      exact reconEntry_eq_self _ _ _ hp
    · intro p hp
      refine ⟨reconEntry_subst _ _ _ hp, ?_⟩
      rw [reconNote_isSome]
      exact hp

/-- C5 witness: with the model root holding exactly
`checkpoints/a.ckpt`, the inventory is `["a.ckpt"]` and reconciling the
example workflow (which requests the absent `missing.ckpt`) emits
exactly one note. -/
theorem reconcile_rewrites_to_first_witness :
    listCheckpoints [["checkpoints", "a.ckpt"]] = ["a.ckpt"] ∧
    (reconcileCkpt wfEx (listCheckpoints [["checkpoints", "a.ckpt"]])).2.length = 1 := by
  have hlc : listCheckpoints [["checkpoints", "a.ckpt"]] = ["a.ckpt"] := by decide
  refine ⟨hlc, ?_⟩
  have h := (reconcile_rewrites_to_first wfEx [["checkpoints", "a.ckpt"]]).2 "a.ckpt" [] hlc
  rw [h.2.2.2.1, hlc]
  decide

/-- C6: with a truthy forced checkpoint configured, the patch step
forces every matched loader node's reference via `setCkpt` and performs
no reconciliation (zero notes), its result does not depend on the
inventory at all, the unforced patch step is exactly reconciliation,
and on any loader node carrying an `inputs` object the forced
reference becomes the configured name regardless of its prior value. -/
theorem override_forces_all (c : String) (hc : c ≠ "") (wf : Workflow)
    (inv inv2 : List String) :
    patchWorkflow (some c) inv wf = (wf.map (setCkpt c), []) ∧
    patchWorkflow (some c) inv wf = patchWorkflow (some c) inv2 wf ∧
    patchWorkflow none inv wf = reconcileCkpt wf inv ∧
    (∀ (nid : String) (fields ins : List (String × JVal)),
      isLoaderCT (ctOf fields) = true →
      jget fields "inputs" = some (JVal.jobj ins) →
      ckptNameOf (setCkpt c (nid, JVal.jobj fields)).2 = some (JVal.jstr c)) := by
  refine ⟨?_, ?_, rfl, ?_⟩
  · simp [patchWorkflow, hc, applyForced]
  · simp [patchWorkflow, hc]
  · intro nid fields ins h1 h2
    simp [setCkpt, h1, h2, ckptNameOf, jget_jset_self]

/-- C6 witness: forcing `x.ckpt` on the example workflow yields the
forced mapping with zero notes independently of two different
inventories, and the example loader node's reference becomes
`x.ckpt`. -/
theorem override_forces_all_witness :
    patchWorkflow (some "x.ckpt") ["a.ckpt"] wfEx = (wfEx.map (setCkpt "x.ckpt"), []) ∧
    patchWorkflow (some "x.ckpt") ["a.ckpt"] wfEx
      = patchWorkflow (some "x.ckpt") ["b.ckpt"] wfEx ∧
    ckptNameOf (setCkpt "x.ckpt" ("1", JVal.jobj fieldsEx)).2 = some (JVal.jstr "x.ckpt") := by
  have h := override_forces_all "x.ckpt" (by decide) wfEx ["a.ckpt"] ["b.ckpt"]
  exact ⟨h.1, h.2.1, h.2.2.2 "1" fieldsEx insEx rfl rfl⟩

/-- C8 counterexample: with one manifest entry and an unchanged remote
source from which the fetch fails both times (the `aws s3 cp` error is
logged and skipped), the destination still does not exist after the
first run, so the second run issues the same fetch again — not zero
fetches. -/
theorem second_sync_refetches :
    (syncModels cfgOneEntry fetchNever
      (syncModels cfgOneEntry fetchNever []).1).2 = ["a.ckpt"] ∧
    (syncModels cfgOneEntry fetchNever
      (syncModels cfgOneEntry fetchNever []).1).2 ≠ [] := by
  exact ⟨by decide, by decide⟩

/-- C8 amended: a manifest entry whose destination path already exists
is never fetched (every fetched entry's destination was absent from the
starting filesystem), and the second of two runs issues zero fetches
provided every fetch of a non-skipped manifest line succeeds; an entry
whose fetch failed (destination still missing) is fetched again on the
second run. -/
theorem sync_cache_hits_skip (cfg : SyncCfg) (f : String → Bool) (fs : List (List String)) :
    (∀ l ∈ (syncModels cfg f fs).2, splitPath l ∉ fs) ∧
    ((∀ raw ∈ cfg.lines, skipLine raw = false → f (strTrim raw) = true) →
      (syncModels cfg f (syncModels cfg f fs).1).2 = []) := by
  obtain ⟨bk, me, lines⟩ := cfg
  cases bk with
  | none =>
      constructor
      · intro l hl
        simp [syncModels] at hl
      · intro hOk
        simp [syncModels]
  | some b =>
      by_cases hbe : b = ""
      · subst hbe
        constructor
        · intro l hl
          simp [syncModels] at hl
        · intro hOk
          simp [syncModels]
      · cases me with
        | false =>
            constructor
            · intro l hl
              simp [syncModels, hbe] at hl
            · intro hOk
              simp [syncModels, hbe]
        | true =>
            have hunf : ∀ gs : List (List String),
                syncModels ⟨some b, true, lines⟩ f gs = syncGo f lines gs := by
              intro gs
              simp [syncModels, hbe]
            constructor
            · rw [hunf]
              exact syncGo_fetched_not_present f lines fs
            · intro hOk
              rw [hunf, hunf]
              apply syncGo_no_fetch_when_covered
              intro raw hraw hskip
              exact syncGo_covers f lines fs hOk raw hraw hskip

/-- C8 witness: with the same one-entry manifest but a remote source
whose fetches succeed, the second run issues zero fetches. -/
theorem sync_cache_hits_skip_witness :
    (∀ l ∈ (syncModels cfgOneEntry fetchAlways []).2,
      splitPath l ∉ ([] : List (List String))) ∧
    (syncModels cfgOneEntry fetchAlways
      (syncModels cfgOneEntry fetchAlways []).1).2 = [] := by
  have h := sync_cache_hits_skip cfgOneEntry fetchAlways []
  exact ⟨h.1, h.2 (fun raw hraw hskip => rfl)⟩

/-- C10: whenever the checkpoints inventory taken after cache
synchronization is empty, the handler fails with the hard no-checkpoints
error, and its trace contains neither an engine launch nor an HTTP
submission: the failure happens before the engine subprocess is started
and before anything is submitted. -/
theorem empty_inventory_fails_before_launch (w : World)
    (hempty : listCheckpoints (syncModels w.sync w.fetchOk w.modelsFs).1 = []) :
    (handler w).1 = Except.error HErr.noCheckpoints ∧
    Ev.launch ∉ (handler w).2 ∧
    Ev.post ∉ (handler w).2 := by
  have h2 : handler w = (Except.error HErr.noCheckpoints,
      (syncModels w.sync w.fetchOk w.modelsFs).2.map Ev.fetch) := by
    simp [handler, hempty]
  rw [h2]
  refine ⟨rfl, ?_, ?_⟩ <;> simp

/-- C10 witness: in the world with no bucket, no manifest and an empty
model root, the inventory is empty and the handler stops with the
no-checkpoints error without launching or submitting. -/
theorem empty_inventory_fails_before_launch_witness :
    (handler worldNoCkpt).1 = Except.error HErr.noCheckpoints ∧
    Ev.launch ∉ (handler worldNoCkpt).2 := by
  have h := empty_inventory_fails_before_launch worldNoCkpt rfl
  exact ⟨h.1, h.2.1⟩

end RpHandler
